/-
Verification of the statly-go telemetry SDK's batching delivery pipeline:
a shallow embedding, in Lean 4, of the SDK's scrubber, sampler, bounded
queue, batcher/worker, sender retry loop, lifecycle close path and wire
serialization, together with theorems checking the specified properties
against that embedding.

Source locations refer to the Go repository files:
  part_000 = logger destinations (console/file/observe),
  part_001 = logger scrubber,
  part_003 = statly package (client, HTTP transport, spans),
  logger/logger.go, scope.go.
-/
import Mathlib

set_option autoImplicit false

/-! ## JSON-compatible values

Go passes telemetry payloads around as `interface{}` / `map[string]interface{}`
values that are ultimately rendered by `encoding/json`.  `JValue` is the
corresponding value tree; `obj` keeps the fields as an association list. -/

inductive JValue where
  | null
  | str (s : String)
  | num (n : Int)
  | bool (b : Bool)
  | arr (elems : List JValue)
  | obj (fields : List (String × JValue))

/-! ## Severity levels (logger package)

`logger.Level` is an ordered int enum (logger.go:44-54); `audit` is the
special always-logged level. -/

inductive LogLevel where
  | trace | debug | info | warn | error | fatal | audit
deriving DecidableEq, Repr

/-- `levelNames` (logger.go:56-64): the lowercase wire name of each level. -/
def levelName : LogLevel → String
  | .trace => "trace"
  | .debug => "debug"
  | .info => "info"
  | .warn => "warn"
  | .error => "error"
  | .fatal => "fatal"
  | .audit => "audit"

/-- The numeric value of the Go iota enum (logger.go:46-54). -/
def levelNum : LogLevel → Nat
  | .trace => 0
  | .debug => 1
  | .info => 2
  | .warn => 3
  | .error => 4
  | .fatal => 5
  | .audit => 6

/-- `Logger.shouldLog` (logger.go:277-282): audit always passes, otherwise
`level >= l.minLevel` on the iota values. -/
def shouldLog (minLevel level : LogLevel) : Bool :=
  if level = LogLevel.audit then true
  else levelNum minLevel ≤ levelNum level

/-! ## Scrubber (part_001)

Pattern matchers are modelled in the literal-string fragment of Go regexp:
a pattern with no regex metacharacters matches exactly the occurrences of
that literal, and `ReplaceAllString` rewrites the leftmost non-overlapping
occurrences scanning left to right.  The built-in table `scrubPatterns`
compiles regexes outside this fragment, so constructions that need it take
the table lookup as a parameter. -/

/-- `REDACTED` (part_001:9): the fixed redaction marker. -/
def REDACTED : String := "[REDACTED]"

/-- `SensitiveKeys` (part_001:12-43): the static sensitive-key set, stored
lowercased. -/
def SensitiveKeys : List String :=
  ["password", "passwd", "pwd", "secret", "api_key", "apikey", "api-key",
   "token", "access_token", "accesstoken", "refresh_token", "auth",
   "authorization", "bearer", "credential", "credentials", "private_key",
   "privatekey", "private-key", "secret_key", "secretkey", "secret-key",
   "session_id", "sessionid", "session-id", "session", "cookie",
   "x-api-key", "x-auth-token", "x-access-token"]

/-- `strings.ToLower` on the ASCII range (every sensitive/allowlist key the
SDK compares is ASCII). -/
def charToLower (c : Char) : Char :=
  if 65 ≤ c.toNat ∧ c.toNat ≤ 90 then Char.ofNat (c.toNat + 32) else c

/-- `strings.ToLower`, as used on map keys and allowlist entries. -/
def strToLower (s : String) : String := String.mk (s.data.map charToLower)

/-- One `regexp.ReplaceAllString(s, rep)` pass for a literal pattern `pat`:
replace the leftmost non-overlapping occurrences of `pat`, scanning left to
right.  `fuel` bounds the scan length (the caller passes `s.length`); the
empty pattern never occurs among the SDK's patterns and is treated as
matching nothing. -/
def replaceAllFuel (pat rep : List Char) : Nat → List Char → List Char
  | _, [] => []
  | 0, s => s
  | fuel + 1, c :: rest =>
    if !pat.isEmpty && pat.isPrefixOf (c :: rest) then
      rep ++ replaceAllFuel pat rep fuel (List.drop pat.length (c :: rest))
    else
      c :: replaceAllFuel pat rep fuel rest

/-- `ReplaceAllString` on `String`s, for a literal pattern. -/
def replaceAllLit (pat rep s : String) : String :=
  String.mk (replaceAllFuel pat.toList rep.toList s.toList.length s.toList)

/-- Whether the literal pattern `pat` occurs anywhere in `s` (i.e. the Go
regexp for the literal `pat` has a match in `s`). -/
def containsSeq (pat : List Char) : List Char → Bool
  | [] => pat.isEmpty
  | c :: rest => pat.isPrefixOf (c :: rest) || containsSeq pat rest

/-- `ScrubbingConfig` (logger.go:167-172); `customRegexps` restricted to the
literal fragment. -/
structure ScrubbingConfig where
  enabled : Bool
  patterns : List String
  customRegexps : List String
  allowlist : List String

/-- `Scrubber` (part_001:62-66). -/
structure Scrubber where
  enabled : Bool
  patterns : List String
  allowlist : List String
deriving DecidableEq, Repr

/-- The key list of the built-in `scrubPatterns` table (part_001:46-57). -/
def scrubPatternNames : List String :=
  ["apiKey", "password", "token", "creditCard", "ssn", "email", "ipAddress",
   "awsKey", "privateKey", "jwt"]

/-- `defaultPatterns` (part_001:59). -/
def defaultPatterns : List String :=
  ["apiKey", "password", "token", "creditCard", "ssn", "awsKey",
   "privateKey", "jwt"]

/-- `NewScrubber` (part_001:69-103), parametric in the built-in table lookup
(`lookupBuiltin name` is `scrubPatterns[name]`): load the named built-in
patterns (defaulting to `defaultPatterns` when none are named), append the
custom patterns, and store the allowlist keys lowercased. -/
def NewScrubber (lookupBuiltin : String → Option String)
    (config : ScrubbingConfig) : Scrubber :=
  let names := if config.patterns.isEmpty then defaultPatterns
               else config.patterns
  { enabled := config.enabled
    patterns := names.filterMap lookupBuiltin ++ config.customRegexps
    allowlist := config.allowlist.map strToLower }

/-- `Scrubber.isSensitiveKey` (part_001:168-170). -/
def Scrubber.isSensitiveKey (key : String) : Bool :=
  SensitiveKeys.contains (strToLower key)

/-- The allowlist test `s.allowlist[strings.ToLower(key)]` (part_001:128). -/
def Scrubber.allowed (s : Scrubber) (key : String) : Bool :=
  s.allowlist.contains (strToLower key)

/-- The pattern loop shared by `ScrubString` (part_001:119-123) and
`scrubString` (part_001:160-166): run every configured pattern in order,
each replacing all of its matches with `REDACTED`. -/
def scrubStringPasses (s : Scrubber) (value : String) : String :=
  s.patterns.foldl (fun result p => replaceAllLit p REDACTED result) value

/-- `Scrubber.ScrubString` (part_001:114-124). -/
def Scrubber.ScrubString (s : Scrubber) (value : String) : String :=
  if !s.enabled then value else scrubStringPasses s value

mutual

/-- `Scrubber.scrubValue` (part_001:126-158): allowlisted keys return the
value unchanged; sensitive keys redact the whole value; otherwise recurse by
shape (strings through the pattern passes, lists elementwise with no key,
maps entrywise with the entry's key, scalars unchanged). -/
def scrubValue (s : Scrubber) (value : JValue) (key : String) : JValue :=
  if key != "" && s.allowed key then value
  else if key != "" && Scrubber.isSensitiveKey key then JValue.str REDACTED
  else
    match value with
    | .null => .null
    | .str t => .str (scrubStringPasses s t)
    | .num n => .num n
    | .bool b => .bool b
    | .arr xs => .arr (scrubItems s xs)
    | .obj fs => .obj (scrubEntries s fs)

/-- The `[]interface{}` arm of `scrubValue` (part_001:143-148). -/
def scrubItems (s : Scrubber) : List JValue → List JValue
  | [] => []
  | x :: xs => scrubValue s x "" :: scrubItems s xs

/-- The `map[string]interface{}` arm of `scrubValue` (part_001:149-154). -/
def scrubEntries (s : Scrubber) : List (String × JValue) → List (String × JValue)
  | [] => []
  | (k, v) :: fs => (k, scrubValue s v k) :: scrubEntries s fs

end

/-- `Scrubber.Scrub` (part_001:106-111). -/
def Scrubber.Scrub (s : Scrubber) (value : JValue) : JValue :=
  if !s.enabled then value else scrubValue s value ""

/-! ## Sampler (part_000:411-419, 549-560)

Rates and random draws are modelled as rationals; `rand.Float64()` draws
uniformly in [0,1). -/

/-- `defaultSampling` (part_000:411-419). -/
def defaultSampling : LogLevel → ℚ
  | .trace => 1/100
  | .debug => 1/10
  | .info => 1/2
  | .warn => 1
  | .error => 1
  | .fatal => 1
  | .audit => 1

/-- The sampling-table merge in `NewObserveDestination` (part_000:442-448):
defaults, overridden per level by the config. -/
def buildSampling (overrides : LogLevel → Option ℚ) (l : LogLevel) : ℚ :=
  (overrides l).getD (defaultSampling l)

/-- The sampling admission decision of `ObserveDestination.Write`
(part_000:554-560): audit is never sampled; any other level is dropped
exactly when the draw exceeds its configured rate. -/
def observeAdmit (sampling : LogLevel → ℚ) (level : LogLevel) (draw : ℚ) :
    Bool :=
  if level ≠ LogLevel.audit then
    if draw > sampling level then false else true
  else true

/-! ## Bounded queue (part_000:455, 562-567; part_003:459, 483-498)

A Go buffered channel of capacity `cap` with a stalled consumer is the list
of its pending elements; `select \x7b case ch <- x: default: \x7d` appends when
there is room and otherwise silently drops the incoming element. -/

/-- The non-blocking enqueue used by `ObserveDestination.Write`
(part_000:562-567) and `HTTPTransport.Send` (part_003:483-498). -/
def chanTrySend {α : Type} (capacity : Nat) (queue : List α) (x : α) :
    List α :=
  if queue.length < capacity then queue ++ [x] else queue

/-- A sequence of non-blocking enqueues with the worker stalled. -/
def enqueueAll {α : Type} (capacity : Nat) (queue : List α) (xs : List α) :
    List α :=
  xs.foldl (chanTrySend capacity) queue

/-- The compiled queue capacity of `ObserveDestination` (part_000:455). -/
def observeQueueCap : Nat := 1000

/-- The compiled queue capacity of `HTTPTransport` (part_003:459). -/
def httpQueueCap : Nat := 100

/-! ## Worker shutdown drain (part_000:495-507; part_003:548-569)

After the done signal the worker consumes the remaining queue without
blocking.  The results list the batches handed to `sendBatch`, in order. -/

/-- The drain for-loop of `HTTPTransport.worker` (part_003:554-569): append
each remaining event, flushing whenever the batch reaches `batchSize`, and
send the final partial batch before returning. -/
def httpDrainLoop {α : Type} (batchSize : Nat) (batch : List α) :
    List α → List (List α)
  | [] => if batch.isEmpty then [] else [batch]
  | e :: rest =>
    let batch1 := batch ++ [e]
    if batchSize ≤ batch1.length then batch1 :: httpDrainLoop batchSize [] rest
    else httpDrainLoop batchSize batch1 rest

/-- The whole `case <-t.done` branch of `HTTPTransport.worker`
(part_003:548-569): a non-empty current batch is sent once WITHOUT being
reset, then the drain loop continues appending to that same batch. -/
def httpDoneCase {α : Type} (batchSize : Nat) (batch : List α)
    (queue : List α) : List (List α) :=
  (if batch.isEmpty then [] else [batch]) ++ httpDrainLoop batchSize batch queue

/-- The `case <-o.done` branch of `ObserveDestination.worker`
(part_000:495-507): append every remaining entry to the current batch with
no size-threshold flush, then send the accumulated batch once. -/
def observeDrain {α : Type} (batch : List α) : List α → List (List α)
  | [] => if batch.isEmpty then [] else [batch]
  | e :: rest => observeDrain (batch ++ [e]) rest

/-! ## Sender retry loop (part_003:575-644) -/

/-- What one send attempt can produce: an HTTP status, a network error
(`client.Do` fails), or a request-construction error (`http.NewRequest`
fails); the latter two `continue` to the next attempt. -/
inductive AttemptResult where
  | status (code : Nat)
  | netError
  | buildError
deriving DecidableEq, Repr

/-- The outcome of `HTTPTransport.sendBatch`. -/
inductive BatchOutcome where
  | success
  | clientError
  | abandoned
  | skipped
deriving DecidableEq, Repr

/-- `resp.StatusCode == 200 || resp.StatusCode == 202` (part_003:621). -/
def isSuccessStatus (code : Nat) : Bool := code == 200 || code == 202

/-- `resp.StatusCode >= 400 && resp.StatusCode < 500` (part_003:629). -/
def isClientErrorStatus (code : Nat) : Bool := 400 ≤ code && code < 500

/-- An attempt result on which the loop stops with success. -/
def attemptSucceeds : AttemptResult → Bool
  | .status c => isSuccessStatus c
  | _ => false

/-- An attempt result on which the loop stops without retrying (4xx). -/
def attemptClientError : AttemptResult → Bool
  | .status c => !isSuccessStatus c && isClientErrorStatus c
  | _ => false

/-- An attempt result after which the loop continues to the next attempt. -/
def attemptRetryable (r : AttemptResult) : Bool :=
  !attemptSucceeds r && !attemptClientError r

/-- The retry for-loop of `sendBatch` (part_003:595-639): `resp attempt` is
the result of attempt number `attempt` (0-based); `fuel` is the number of
loop iterations left (`maxRetries - attempt`).  Returns the number of
attempts performed and the outcome. -/
def sendLoop (resp : Nat → AttemptResult) (attempt : Nat) :
    Nat → Nat × BatchOutcome
  | 0 => (attempt, BatchOutcome.abandoned)
  | fuel + 1 =>
    match resp attempt with
    | .buildError => sendLoop resp (attempt + 1) fuel
    | .netError => sendLoop resp (attempt + 1) fuel
    | .status code =>
      if isSuccessStatus code then (attempt + 1, BatchOutcome.success)
      else if isClientErrorStatus code then
        (attempt + 1, BatchOutcome.clientError)
      else sendLoop resp (attempt + 1) fuel

/-- `HTTPTransport.sendBatch` (part_003:575-644): an empty batch is a no-op
(part_003:576-578); otherwise the retry loop runs with the attempt budget. -/
def sendBatchHTTP {α : Type} (resp : Nat → AttemptResult) (maxRetries : Nat)
    (batch : List α) : Nat × BatchOutcome :=
  if batch.isEmpty then (0, BatchOutcome.skipped)
  else sendLoop resp 0 maxRetries

/-- The MaxRetries defaulting in `NewHTTPTransport` (part_003:439-441). -/
def transportDefaultMaxRetries (configured : Nat) : Nat :=
  if configured == 0 then 3 else configured

/-- A peer returning 503 on the first two attempts and 200 on the third. -/
def resp503then200 : Nat → AttemptResult :=
  fun attempt => if attempt < 2 then .status 503 else .status 200

/-- A peer always returning 404. -/
def resp404 : Nat → AttemptResult := fun _ => .status 404

/-! ## Destination close (part_000:578-581; part_003:515-518) -/

/-- The result of a close call: normal return (with the new done-flag) or a
Go runtime panic. -/
inductive CloseOutcome where
  | returned (doneClosed : Bool)
  | panicked
deriving DecidableEq, Repr

/-- `ObserveDestination.Close` (part_000:578-581) and `HTTPTransport.Close`
(part_003:515-518): both run `close(done)` then wait for the worker.  The
only destination state they touch is whether `done` is already closed, and
Go panics when closing an already-closed channel. -/
def destClose (doneClosed : Bool) : CloseOutcome :=
  if doneClosed then CloseOutcome.panicked else CloseOutcome.returned true

/-- The package-level `Close` (part_003:290-298): under the global lock, a
nil client is left alone; otherwise `Client.Close` runs (which is
`transport.Close`, i.e. `destClose` on the transport's done-flag) and the
global client is set to nil.  `none` as outer result means the call
panicked. -/
def statlyClose (globalClient : Option Bool) : Option (Option Bool) :=
  match globalClient with
  | none => some none
  | some doneClosed =>
    match destClose doneClosed with
    | .panicked => none
    | .returned _ => some none

/-! ## Wire serialization (logger.go:76-119; part_000:512-541;
scope.go:233-250; part_003:575-592)

`GoTime` abstracts a Go `time.Time` instant by the two serializations the
SDK uses: `Entry.ToMap` calls `UnixMilli()`, while `encoding/json` renders a
`time.Time` struct field as its RFC3339 string. -/

structure GoTime where
  unixMilli : Int
  rfc3339 : String

/-- `Source` (logger.go:95-99); every field carries `omitempty`. -/
structure SourceInfo where
  file : String
  line : Int
  function : String

/-- A list holding `[(name, v)]` when the field is serialized and `[]` when
`omitempty` drops it. -/
def optField (present : Bool) (name : String) (v : JValue) :
    List (String × JValue) :=
  if present then [(name, v)] else []

/-- The field of a pointer-valued `omitempty` member: absent when nil. -/
def optFieldO (name : String) : Option JValue → List (String × JValue)
  | none => []
  | some v => [(name, v)]

/-- How `encoding/json` marshals a `Source` value (tags at logger.go:95-99). -/
def sourceJson (s : SourceInfo) : JValue :=
  JValue.obj (optField (s.file != "") "file" (.str s.file)
    ++ optField (s.line != 0) "line" (.num s.line)
    ++ optField (s.function != "") "function" (.str s.function))

/-- `Entry` (logger.go:76-92).  Go's nil maps and nil pointers are `none`. -/
structure Entry where
  level : LogLevel
  message : String
  timestamp : GoTime
  loggerName : String
  context : Option (List (String × JValue))
  tags : Option (List (String × String))
  source : Option SourceInfo
  traceID : String
  spanID : String
  sessionID : String
  environment : String
  release : String
  sdkName : String
  sdkVersion : String

/-- How `encoding/json` marshals a possibly-nil `map[string]interface \x7b\x7d`
stored in a `map[string]interface \x7b\x7d` value: nil becomes JSON null. -/
def goMapJson : Option (List (String × JValue)) → JValue
  | none => JValue.null
  | some fields => JValue.obj fields

/-- Same for a possibly-nil `map[string]string`. -/
def goStrMapJson : Option (List (String × String)) → JValue
  | none => JValue.null
  | some fields => JValue.obj (fields.map fun kv => (kv.1, JValue.str kv.2))

/-- Same for a possibly-nil pointer: nil becomes JSON null. -/
def goPtrJson {α : Type} (f : α → JValue) : Option α → JValue
  | none => JValue.null
  | some x => f x

/-- `Entry.ToMap` (logger.go:102-119): EVERY key is emitted unconditionally;
the level is its lowercase name and the timestamp is epoch milliseconds. -/
def entryToMap (e : Entry) : List (String × JValue) :=
  [("level", .str (levelName e.level)),
   ("message", .str e.message),
   ("timestamp", .num e.timestamp.unixMilli),
   ("loggerName", .str e.loggerName),
   ("context", goMapJson e.context),
   ("tags", goStrMapJson e.tags),
   ("source", goPtrJson sourceJson e.source),
   ("traceId", .str e.traceID),
   ("spanId", .str e.spanID),
   ("sessionId", .str e.sessionID),
   ("environment", .str e.environment),
   ("release", .str e.release),
   ("sdkName", .str e.sdkName),
   ("sdkVersion", .str e.sdkVersion)]

/-- The request body built by `ObserveDestination.sendBatch`
(part_000:512-523): none for the empty batch (no request is made),
otherwise an object with the single array field "logs". -/
def observeBody (batch : List Entry) : Option JValue :=
  if batch.isEmpty then none
  else some (JValue.obj
    [("logs", JValue.arr (batch.map fun e => JValue.obj (entryToMap e)))])

/-- `Event` (scope.go:233-250).  `level` is the statly string-typed Level;
nested members whose internal structure the claims never inspect
(exceptions, breadcrumbs, user, request, context/extra values) are carried
as already-serialized `JValue`s. -/
structure EventS where
  eventID : String
  timestamp : GoTime
  level : String
  platform : String
  message : String
  exception : List JValue
  contexts : List (String × JValue)
  tags : List (String × String)
  extra : List (String × JValue)
  user : Option JValue
  breadcrumbs : List JValue
  sdkName : String
  sdkVersion : String
  environment : String
  release : String
  serverName : String
  request : Option JValue

/-- How `encoding/json` marshals an `Event` (struct tags at
scope.go:233-250), in declaration order: `event_id`, `timestamp`, `level`,
`platform` and `sdk` are always present; every other field carries
`omitempty` and is absent when empty/nil.  The `timestamp` field of a
`time.Time` marshals as its RFC3339 string. -/
def eventFields (ev : EventS) : List (String × JValue) :=
  [("event_id", JValue.str ev.eventID),
   ("timestamp", JValue.str ev.timestamp.rfc3339),
   ("level", JValue.str ev.level),
   ("platform", JValue.str ev.platform)]
  ++ optField (ev.message != "") "message" (.str ev.message)
  ++ optField (!ev.exception.isEmpty) "exception" (.arr ev.exception)
  ++ optField (!ev.contexts.isEmpty) "contexts" (.obj ev.contexts)
  ++ optField (!ev.tags.isEmpty) "tags"
      (.obj (ev.tags.map fun kv => (kv.1, JValue.str kv.2)))
  ++ optField (!ev.extra.isEmpty) "extra" (.obj ev.extra)
  ++ optFieldO "user" ev.user
  ++ optField (!ev.breadcrumbs.isEmpty) "breadcrumbs" (.arr ev.breadcrumbs)
  ++ [("sdk", JValue.obj
       [("name", JValue.str ev.sdkName), ("version", JValue.str ev.sdkVersion)])]
  ++ optField (ev.environment != "") "environment" (.str ev.environment)
  ++ optField (ev.release != "") "release" (.str ev.release)
  ++ optField (ev.serverName != "") "server_name" (.str ev.serverName)
  ++ optFieldO "request" ev.request

def eventJson (ev : EventS) : JValue := JValue.obj (eventFields ev)

/-- The request body built by `HTTPTransport.sendBatch` (part_003:580-586):
none for the empty batch, otherwise an object with the single array field
"events". -/
def httpBody (batch : List EventS) : Option JValue :=
  if batch.isEmpty then none
  else some (JValue.obj [("events", JValue.arr (batch.map eventJson))])

/-! ## Package-level capture guards (part_003:175-221, 289-298)

Each package-level capture reads the global client under the read lock and
returns the empty string when it is nil, without calling the client.  The
client's own behaviour is abstracted as a function returning the event id
and the list of events handed to the transport, so "no side effect" is the
empty event list. -/

structure GoError where
  message : String

/-- `CaptureException` (part_003:175-185). -/
def pkgCaptureException {C E : Type} (globalClient : Option C)
    (clientCapture : C → GoError → String × List E) (err : GoError) :
    String × List E :=
  match globalClient with
  | none => ("", [])
  | some c => clientCapture c err

/-- `CaptureExceptionWithContext` (part_003:187-197). -/
def pkgCaptureExceptionWithContext {C E : Type} (globalClient : Option C)
    (clientCapture : C → GoError → List (String × JValue) → String × List E)
    (err : GoError) (ctx : List (String × JValue)) : String × List E :=
  match globalClient with
  | none => ("", [])
  | some c => clientCapture c err ctx

/-- `CaptureMessage` (part_003:199-209). -/
def pkgCaptureMessage {C E : Type} (globalClient : Option C)
    (clientCapture : C → String → String → String × List E)
    (message : String) (level : String) : String × List E :=
  match globalClient with
  | none => ("", [])
  | some c => clientCapture c message level

/-- `CaptureMessageWithContext` (part_003:211-221). -/
def pkgCaptureMessageWithContext {C E : Type} (globalClient : Option C)
    (clientCapture :
      C → String → String → List (String × JValue) → String × List E)
    (message : String) (level : String) (ctx : List (String × JValue)) :
    String × List E :=
  match globalClient with
  | none => ("", [])
  | some c => clientCapture c message level ctx

/-! ## Concrete fixtures used by counterexamples and witnesses -/

/-- A fixed instant: epoch-millisecond and RFC3339 forms of the same time. -/
def sampleTime : GoTime := ⟨1767225600000, "2026-01-01T00:00:00Z"⟩

/-- An `Entry` whose optional fields are all at their Go zero values. -/
def sampleEntry : Entry :=
  { level := .error, message := "boom", timestamp := sampleTime,
    loggerName := "default", context := none, tags := none, source := none,
    traceID := "", spanID := "", sessionID := "", environment := "",
    release := "", sdkName := "statly-observe-go", sdkVersion := "0.2.0" }

/-- An `Event` as `NewEvent` builds it (scope.go:331-345), with no optional
data populated. -/
def sampleEvent : EventS :=
  { eventID := "abc123", timestamp := sampleTime, level := "error",
    platform := "go", message := "", exception := [], contexts := [],
    tags := [], extra := [], user := none, breadcrumbs := [],
    sdkName := "statly-observe-go", sdkVersion := "0.1.0",
    environment := "", release := "", serverName := "", request := none }

/-- A scrubber whose only pattern is the literal `CT`; reachable through
`NewScrubber` with a config naming no existing built-in pattern and one
custom pattern. -/
def ctScrubber : Scrubber := ⟨true, ["CT"], []⟩

/-- Look up a field by name in a serialized JSON object (first match). -/
def fieldOf : List (String × JValue) → String → Option JValue
  | [], _ => none
  | (k1, v) :: rest, k => if k == k1 then some v else fieldOf rest k

/-! ## Theorems -/

/-! ### Queue helper lemmas -/

theorem enqueueAll_eq_take {α : Type} (K : Nat) :
    ∀ (rs q : List α), q.length ≤ K →
      enqueueAll K q rs = q ++ rs.take (K - q.length) := by
  intro rs
  induction rs with
  | nil => intro q _; simp [enqueueAll]
  | cons r rs ih =>
    intro q h
    by_cases hq : q.length < K
    · have hstep : enqueueAll K q (r :: rs) = enqueueAll K (q ++ [r]) rs := by
        simp [enqueueAll, chanTrySend, hq]
      rw [hstep, ih (q ++ [r]) (by simp; omega)]
      have hk : K - q.length = (K - (q.length + 1)) + 1 := by omega
      rw [hk]
      simp [List.take_succ_cons, List.append_assoc]
    · have hEq : q.length = K := by omega
      have hstep : enqueueAll K q (r :: rs) = enqueueAll K q rs := by
        simp [enqueueAll, chanTrySend, hq]
      rw [hstep, ih q h]
      simp [hEq]

/-- C2: with a fixed capacity `K` and the worker stalled, a single enqueue
into a full buffer drops the incoming record and leaves the buffer as is,
an enqueue into a non-full buffer appends in arrival order, and after `K + 5`
enqueues starting from empty exactly the first `K` records remain, in
arrival order, while the `5` newest attempts (`rs.drop K`) are the dropped
ones. -/
theorem queue_drop_newest {α : Type} (K : Nat) (rs : List α)
    (h : rs.length = K + 5) :
    (∀ (q : List α) (x : α), K ≤ q.length → chanTrySend K q x = q)
    ∧ (∀ (q : List α) (x : α), q.length < K → chanTrySend K q x = q ++ [x])
    ∧ enqueueAll K [] rs = rs.take K
    ∧ (enqueueAll K [] rs).length = K
    ∧ enqueueAll K [] rs ++ rs.drop K = rs
    ∧ (rs.drop K).length = 5 := by
  have hall : enqueueAll K [] rs = rs.take K := by
    rw [enqueueAll_eq_take K rs [] (by simp)]
    simp
  refine ⟨?_, ?_, hall, ?_, ?_, ?_⟩
  · intro q x hq
    simp [chanTrySend]
    omega
  · intro q x hq
    simp [chanTrySend, hq]
  · rw [hall]
    simp [List.length_take]
    omega
  · rw [hall]
    exact List.take_append_drop K rs
  · simp [List.length_drop, h]

/-- Witness for `queue_drop_newest` at `K = 3` with 8 enqueues. -/
theorem queue_drop_newest_witness :
    enqueueAll 3 ([] : List Nat) [0, 1, 2, 3, 4, 5, 6, 7] = [0, 1, 2] :=
  (queue_drop_newest 3 [0, 1, 2, 3, 4, 5, 6, 7] (by decide)).2.2.1

/-! ### C3: destination close -/

/-- C3 counterexample: the first close of a destination returns normally
(leaving the done channel closed), and a second close on that reachable
state PANICS (Go: close of closed channel), so re-closing is not a no-op. -/
theorem close_reclose_panics_counterexample :
    destClose false = CloseOutcome.returned true
    ∧ destClose true = CloseOutcome.panicked := by decide

/-- C3 amended: destination-level close is not idempotent — on every state
reachable after a first close (done flag set) a second
`ObserveDestination.Close` / `HTTPTransport.Close` panics; only the
package-level `statly.Close` is idempotent, because it nils the global
client, so any second package-level close is a panic-free no-op. -/
theorem close_reclose_behavior :
    (∀ doneClosed : Bool, doneClosed = true →
      destClose doneClosed = CloseOutcome.panicked)
    ∧ (∀ (g g' : Option Bool), statlyClose g = some g' →
        statlyClose g' = some none)
    ∧ destClose false = CloseOutcome.returned true := by
  refine ⟨?_, ?_, by decide⟩
  · intro d hd; subst hd; decide
  · intro g g' hg
    match g with
    | none => simp [statlyClose] at hg; subst hg; decide
    | some false => simp [statlyClose, destClose] at hg; subst hg; decide
    | some true => simp [statlyClose, destClose] at hg

/-- Witness for `close_reclose_behavior`: the second close panics. -/
theorem close_reclose_behavior_witness :
    destClose true = CloseOutcome.panicked :=
  close_reclose_behavior.1 true rfl

/-! ### C4: sampling admission -/

/-- C4: for every configured rate table (defaults overridden per level) and
every draw, an audit record is admitted unconditionally and also passes the
minimum-level filter regardless of the configured minimum; a record at any
other level is admitted exactly when the draw is at most the configured
rate for that level. -/
theorem sampling_admit_spec (overrides : LogLevel → Option ℚ) (draw : ℚ)
    (minLevel level : LogLevel) (hlevel : level ≠ LogLevel.audit) :
    observeAdmit (buildSampling overrides) LogLevel.audit draw = true
    ∧ shouldLog minLevel LogLevel.audit = true
    ∧ (observeAdmit (buildSampling overrides) level draw = true
        ↔ draw ≤ buildSampling overrides level) := by
  refine ⟨by simp [observeAdmit], by simp [shouldLog], ?_⟩
  simp only [observeAdmit, if_pos hlevel]
  by_cases hd : draw > buildSampling overrides level
  · simp only [if_pos hd]
    constructor
    · intro hfalse
      exact absurd hfalse (by decide)
    · intro hle
      exact absurd hd (not_lt.mpr hle)
  · simp only [if_neg hd]
    constructor
    · intro _
      exact not_lt.mp hd
    · intro _
      trivial

/-- Witness for `sampling_admit_spec`: audit admitted under the default
table even with a draw above every non-audit rate. -/
theorem sampling_admit_spec_witness :
    observeAdmit (buildSampling fun _ => none) LogLevel.audit (99/100) = true :=
  (sampling_admit_spec (fun _ => none) (99/100) LogLevel.debug LogLevel.info
    (by decide)).1

/-! ### C10: package-level captures without an initialized SDK -/

/-- C10: each package-level capture call made while the global client is nil
(never initialized, or nilled by `Close`) returns the empty string and hands
nothing to any client (no side effect), for every possible client behaviour;
and the package-level `Close` always leaves the global client nil, so
captures after a close hit exactly this path. -/
theorem capture_uninitialized_noop {C E : Type}
    (cc1 : C → GoError → String × List E)
    (cc2 : C → GoError → List (String × JValue) → String × List E)
    (cc3 : C → String → String → String × List E)
    (cc4 : C → String → String → List (String × JValue) → String × List E)
    (err : GoError) (ctx : List (String × JValue)) (msg lvl : String) :
    pkgCaptureException none cc1 err = ("", [])
    ∧ pkgCaptureExceptionWithContext none cc2 err ctx = ("", [])
    ∧ pkgCaptureMessage none cc3 msg lvl = ("", [])
    ∧ pkgCaptureMessageWithContext none cc4 msg lvl ctx = ("", [])
    ∧ (∀ (g g' : Option Bool), statlyClose g = some g' → g' = none) := by
  refine ⟨rfl, rfl, rfl, rfl, ?_⟩
  intro g g' hg
  match g with
  | none => simpa [statlyClose] using hg.symm
  | some false => simpa [statlyClose, destClose] using hg.symm
  | some true => simp [statlyClose, destClose] at hg

/-- Witness for `capture_uninitialized_noop` at concrete types and inputs. -/
theorem capture_uninitialized_noop_witness :
    pkgCaptureException (none : Option Unit)
      (fun _ _ => ("id", [()])) ⟨"boom"⟩ = ("", ([] : List Unit)) :=
  (capture_uninitialized_noop (fun _ _ => ("id", [()]))
    (fun _ _ _ => ("id", [()])) (fun _ _ _ => ("id", [()]))
    (fun _ _ _ _ => ("id", [()])) ⟨"boom"⟩ [] "m" "error").1

/-! ### C1: sender retry loop -/

theorem sendLoop_stop_success (resp : Nat → AttemptResult) (attempt fuel : Nat)
    (h : attemptSucceeds (resp attempt) = true) :
    sendLoop resp attempt (fuel + 1) = (attempt + 1, BatchOutcome.success) := by
  cases hr : resp attempt with
  | status c =>
    rw [hr] at h
    simp only [attemptSucceeds] at h
    simp [sendLoop, hr, h]
  | netError => rw [hr] at h; simp [attemptSucceeds] at h
  | buildError => rw [hr] at h; simp [attemptSucceeds] at h

theorem sendLoop_stop_clientError (resp : Nat → AttemptResult)
    (attempt fuel : Nat) (h : attemptClientError (resp attempt) = true) :
    sendLoop resp attempt (fuel + 1) = (attempt + 1, BatchOutcome.clientError) := by
  cases hr : resp attempt with
  | status c =>
    rw [hr] at h
    simp only [attemptClientError, Bool.and_eq_true, Bool.not_eq_true'] at h
    simp [sendLoop, hr, h.1, h.2]
  | netError => rw [hr] at h; simp [attemptClientError] at h
  | buildError => rw [hr] at h; simp [attemptClientError] at h

theorem sendLoop_retry_step (resp : Nat → AttemptResult) (attempt fuel : Nat)
    (h : attemptRetryable (resp attempt) = true) :
    sendLoop resp attempt (fuel + 1) = sendLoop resp (attempt + 1) fuel := by
  cases hr : resp attempt with
  | status c =>
    rw [hr] at h
    simp only [attemptRetryable, attemptSucceeds, attemptClientError,
      Bool.and_eq_true, Bool.not_eq_true', Bool.not_and, Bool.not_eq_false,
      Bool.or_eq_true] at h
    obtain ⟨hsucc, hother⟩ := h
    have hclient : isClientErrorStatus c = false := by
      rcases hother with hccontra | hfalse
      · have hT : isSuccessStatus c = true := by simpa using hccontra
        rw [hT] at hsucc
        exact absurd hsucc (by simp)
      · exact hfalse
    simp [sendLoop, hr, hsucc, hclient]
  | netError => simp [sendLoop, hr]
  | buildError => simp [sendLoop, hr]

theorem sendLoop_skip (resp : Nat → AttemptResult) :
    ∀ (i fuel attempt : Nat), i ≤ fuel →
      (∀ j, j < i → attemptRetryable (resp (attempt + j)) = true) →
      sendLoop resp attempt fuel = sendLoop resp (attempt + i) (fuel - i) := by
  intro i
  induction i with
  | zero => intro fuel attempt _ _; simp
  | succ i ih =>
    intro fuel attempt hle hret
    obtain ⟨f, rfl⟩ : ∃ f, fuel = f + 1 := ⟨fuel - 1, by omega⟩
    rw [sendLoop_retry_step resp attempt f (by simpa using hret 0 (by omega))]
    rw [ih f (attempt + 1) (by omega) (fun j hj => by
      have hjj := hret (j + 1) (by omega)
      have harith : attempt + (j + 1) = attempt + 1 + j := by omega
      rwa [harith] at hjj)]
    have h1 : attempt + 1 + i = attempt + (i + 1) := by omega
    have h2 : f - i = f + 1 - (i + 1) := by omega
    rw [h1, h2]

theorem sendLoop_all_retry (resp : Nat → AttemptResult) (fuel attempt : Nat)
    (h : ∀ j, j < fuel → attemptRetryable (resp (attempt + j)) = true) :
    sendLoop resp attempt fuel = (attempt + fuel, BatchOutcome.abandoned) := by
  rw [sendLoop_skip resp fuel fuel attempt le_rfl h]
  simp [sendLoop]

/-- C1: for every response behaviour `resp` and attempt budget `N`, the
retry loop of `sendBatch` stops with success right after the first attempt
returning 200/202 (all earlier attempts having been retryable failures),
stops without retrying right after the first attempt returning a 4xx, and
when every attempt in the budget fails retryably it performs exactly `N`
attempts and abandons the batch (no re-queue: the outcome carries nothing).
Concretely: 503, 503 then 200 with budget 3 means 3 attempts and success; a
constant 404 means exactly 1 attempt; and the default budget is 3. -/
theorem sendBatch_retry_policy (resp : Nat → AttemptResult) (N : Nat) :
    (∀ i, i < N → (∀ j, j < i → attemptRetryable (resp j) = true) →
      attemptSucceeds (resp i) = true →
      sendLoop resp 0 N = (i + 1, BatchOutcome.success))
    ∧ (∀ i, i < N → (∀ j, j < i → attemptRetryable (resp j) = true) →
      attemptClientError (resp i) = true →
      sendLoop resp 0 N = (i + 1, BatchOutcome.clientError))
    ∧ ((∀ j, j < N → attemptRetryable (resp j) = true) →
      sendLoop resp 0 N = (N, BatchOutcome.abandoned))
    ∧ sendBatchHTTP resp503then200 3 [()] = (3, BatchOutcome.success)
    ∧ sendBatchHTTP resp404 3 [()] = (1, BatchOutcome.clientError)
    ∧ transportDefaultMaxRetries 0 = 3 := by
  refine ⟨?_, ?_, ?_, by decide, by decide, by decide⟩
  · intro i hi hret hsucc
    rw [sendLoop_skip resp i N 0 (by omega)
      (fun j hj => by simpa using hret j hj)]
    obtain ⟨f, hf⟩ : ∃ f, N - i = f + 1 := ⟨N - i - 1, by omega⟩
    rw [hf, sendLoop_stop_success resp (0 + i) f (by simpa using hsucc)]
    simp
  · intro i hi hret hclient
    rw [sendLoop_skip resp i N 0 (by omega)
      (fun j hj => by simpa using hret j hj)]
    obtain ⟨f, hf⟩ : ∃ f, N - i = f + 1 := ⟨N - i - 1, by omega⟩
    rw [hf, sendLoop_stop_clientError resp (0 + i) f (by simpa using hclient)]
    simp
  · intro hall
    have := sendLoop_all_retry resp N 0 (fun j hj => by simpa using hall j hj)
    simpa using this

/-- Witness for `sendBatch_retry_policy`: a first-attempt 404 stops after
exactly one attempt. -/
theorem sendBatch_retry_policy_witness :
    sendLoop resp404 0 3 = (1, BatchOutcome.clientError) :=
  (sendBatch_retry_policy resp404 3).2.1 0 (by omega)
    (fun j hj => absurd hj (by omega)) (by decide)

/-! ### C5 and C9: key-based scrubbing -/

/-- C5: whenever a map entry's key is in the sensitive-key set
(case-insensitively) and not allowlisted, `scrubValue` replaces the entire
value with the redaction marker, whatever the value's shape (no recursion
into the subtree), and `Scrub` on a map therefore redacts that entry
wholesale. -/
theorem scrub_sensitive_key_redacts (s : Scrubber) (v : JValue) (k : String)
    (hs : Scrubber.isSensitiveKey k = true) (ha : s.allowed k = false) :
    scrubValue s v k = JValue.str REDACTED
    ∧ (s.enabled = true →
      Scrubber.Scrub s (JValue.obj [(k, v)])
        = JValue.obj [(k, JValue.str REDACTED)]) := by
  have hk : (k != "") = true := by
    rw [bne_iff_ne]
    intro hEq
    rw [hEq] at hs
    exact absurd hs (by decide)
  have hmain : scrubValue s v k = JValue.str REDACTED := by
    rw [scrubValue.eq_def]
    simp [hk, ha, hs]
  refine ⟨hmain, fun hen => ?_⟩
  have hobj : Scrubber.Scrub s (JValue.obj [(k, v)])
      = JValue.obj [(k, scrubValue s v k)] := by
    rw [Scrubber.Scrub, scrubValue.eq_def]
    simp [hen, scrubEntries]
  rw [hobj, hmain]

/-- Witness for `scrub_sensitive_key_redacts`: a whole object under the key
"Password" collapses to the marker. -/
theorem scrub_sensitive_key_redacts_witness :
    scrubValue ⟨true, [], []⟩ (JValue.obj [("inner", JValue.str "x")])
      "Password" = JValue.str REDACTED :=
  (scrub_sensitive_key_redacts ⟨true, [], []⟩
    (JValue.obj [("inner", JValue.str "x")]) "Password"
    (by decide) (by decide)).1

/-- C9: an allowlisted key (case-insensitive) returns the entry value
completely unchanged: the allowlist test precedes the sensitive-key test,
the pattern passes and the recursion, so even a subtree containing
sensitive keys or pattern-matching strings passes through untouched. -/
theorem scrub_allowlist_passthrough (s : Scrubber) (v : JValue) (k : String)
    (hk : k ≠ "") (ha : s.allowed k = true) :
    scrubValue s v k = v
    ∧ (s.enabled = true →
      Scrubber.Scrub s (JValue.obj [(k, v)]) = JValue.obj [(k, v)]) := by
  have hkb : (k != "") = true := by rwa [bne_iff_ne]
  have hmain : scrubValue s v k = v := by
    rw [scrubValue.eq_def]
    simp [hkb, ha]
  refine ⟨hmain, fun hen => ?_⟩
  have hobj : Scrubber.Scrub s (JValue.obj [(k, v)])
      = JValue.obj [(k, scrubValue s v k)] := by
    rw [Scrubber.Scrub, scrubValue.eq_def]
    simp [hen, scrubEntries]
  rw [hobj, hmain]

/-- Witness for `scrub_allowlist_passthrough`: the allowlisted key "Token"
keeps a subtree that has a sensitive key and a pattern-matching string. -/
theorem scrub_allowlist_passthrough_witness :
    scrubValue ⟨true, ["CT"], ["token"]⟩
      (JValue.obj [("password", JValue.str "CT")]) "Token"
      = JValue.obj [("password", JValue.str "CT")] :=
  (scrub_allowlist_passthrough ⟨true, ["CT"], ["token"]⟩
    (JValue.obj [("password", JValue.str "CT")]) "Token"
    (by decide) (by decide)).1

/-! ### C6: drain batching -/

theorem observeDrain_eq {α : Type} :
    ∀ (rs batch : List α),
      observeDrain batch rs
        = if (batch ++ rs).isEmpty then [] else [batch ++ rs] := by
  intro rs
  induction rs with
  | nil =>
    intro batch
    rw [List.append_nil]
    simp [observeDrain]
  | cons e rest ih =>
    intro batch
    rw [observeDrain, ih (batch ++ [e])]
    simp

theorem httpDrainLoop_chunk {α : Type} (B : Nat) :
    ∀ (rs batch : List α), batch.length < B → B ≤ batch.length + rs.length →
      httpDrainLoop B batch rs
        = (batch ++ rs.take (B - batch.length))
            :: httpDrainLoop B [] (rs.drop (B - batch.length)) := by
  intro rs
  induction rs with
  | nil =>
    intro batch h1 h2
    simp at h2
    omega
  | cons e rest ih =>
    intro batch h1 h2
    by_cases hfull : B ≤ (batch ++ [e]).length
    · have hB : B = batch.length + 1 := by
        simp at hfull
        omega
      rw [httpDrainLoop]
      simp only [hfull, if_pos]
      have htake : B - batch.length = 1 := by omega
      rw [htake]
      simp
    · have hlt : (batch ++ [e]).length < B := by omega
      rw [httpDrainLoop]
      simp only [if_neg hfull]
      rw [ih (batch ++ [e]) hlt (by simp; simp at h2; omega)]
      have hk : B - batch.length = (B - (batch.length + 1)) + 1 := by omega
      have hlen : (batch ++ [e]).length = batch.length + 1 := by simp
      rw [hlen, hk]
      simp [List.take_succ_cons, List.drop_succ_cons, List.append_assoc]

theorem httpDrainLoop_small {α : Type} (B : Nat) :
    ∀ (rs batch : List α), batch.length + rs.length < B →
      httpDrainLoop B batch rs
        = if (batch ++ rs).isEmpty then [] else [batch ++ rs] := by
  intro rs
  induction rs with
  | nil =>
    intro batch _
    rw [List.append_nil]
    simp [httpDrainLoop]
  | cons e rest ih =>
    intro batch h
    have hlt : ¬ B ≤ (batch ++ [e]).length := by
      simp
      simp at h
      omega
    rw [httpDrainLoop]
    simp only [if_neg hlt]
    rw [ih (batch ++ [e]) (by simp; simp at h; omega)]
    simp

/-- C6 counterexample: with batch threshold `B = 5` and `2B + 3 = 13`
records pending at shutdown, the `ObserveDestination` drain sends the whole
backlog as ONE batch of 13 — not three batches of sizes B, B, 3 — because
its drain loop never flushes at the size threshold. -/
theorem observe_drain_single_batch_counterexample :
    observeDrain ([] : List Nat) [0, 1, 2, 3, 4, 5, 6, 7, 8, 9, 10, 11, 12]
      = [[0, 1, 2, 3, 4, 5, 6, 7, 8, 9, 10, 11, 12]]
    ∧ (observeDrain ([] : List Nat)
        [0, 1, 2, 3, 4, 5, 6, 7, 8, 9, 10, 11, 12]).map List.length
      ≠ [5, 5, 3] := by decide

/-- C6 amended: with threshold `B > 3`, `2B + 3` records pending in the
queue at shutdown and an empty current batch, the `HTTPTransport` worker's
drain sends exactly three batches of sizes B, B and 3, in arrival order
(their concatenation is the original sequence); the `ObserveDestination`
worker's drain instead sends the entire backlog as a single batch of
`2B + 3` records, with no intermediate threshold flush. -/
theorem drain_batching_behavior {α : Type} (B : Nat) (rs : List α)
    (hB : 3 < B) (hlen : rs.length = 2 * B + 3) :
    httpDoneCase B [] rs
      = [rs.take B, (rs.drop B).take B, (rs.drop B).drop B]
    ∧ (httpDoneCase B [] rs).map List.length = [B, B, 3]
    ∧ rs.take B ++ ((rs.drop B).take B ++ (rs.drop B).drop B) = rs
    ∧ observeDrain [] rs = [rs] := by
  have hlen1 : (rs.drop B).length = B + 3 := by
    rw [List.length_drop, hlen]
    omega
  have hlen2 : ((rs.drop B).drop B).length = 3 := by
    rw [List.length_drop, hlen1]
    omega
  have hne2 : ((rs.drop B).drop B).isEmpty = false := by
    rcases h : (rs.drop B).drop B with _ | _
    · rw [h] at hlen2; simp at hlen2
    · simp
  have harg1 : ([] : List α).length < B := by simp; omega
  have harg2 : B ≤ ([] : List α).length + rs.length := by
    rw [List.length_nil, hlen]
    omega
  have harg3 : B ≤ ([] : List α).length + (rs.drop B).length := by
    rw [List.length_nil, hlen1]
    omega
  have harg4 : ([] : List α).length + ((rs.drop B).drop B).length < B := by
    rw [List.length_nil, hlen2]
    omega
  have hfull : httpDoneCase B [] rs
      = rs.take B :: ((rs.drop B).take B :: [(rs.drop B).drop B]) := by
    rw [httpDoneCase]
    rw [httpDrainLoop_chunk B rs [] harg1 harg2]
    simp only [List.length_nil, Nat.sub_zero, List.nil_append, List.isEmpty_nil]
    rw [httpDrainLoop_chunk B (rs.drop B) [] harg1 harg3]
    simp only [List.length_nil, Nat.sub_zero, List.nil_append]
    rw [httpDrainLoop_small B ((rs.drop B).drop B) [] harg4]
    simp [hne2]
    omega
  have hTakeLen1 : (rs.take B).length = B := by
    rw [List.length_take, hlen]
    omega
  have hTakeLen2 : ((rs.drop B).take B).length = B := by
    rw [List.length_take, hlen1]
    omega
  refine ⟨hfull, ?_, ?_, ?_⟩
  · rw [hfull]
    simp only [List.map_cons, List.map_nil, hTakeLen1, hTakeLen2, hlen2]
  · rw [List.take_append_drop, List.take_append_drop]
  · rw [observeDrain_eq rs []]
    have hne : rs.isEmpty = false := by
      rcases h : rs with _ | _
      · rw [h] at hlen; simp at hlen
      · simp
    simp [hne]

/-- Witness for `drain_batching_behavior` at `B = 4` with 11 records. -/
theorem drain_batching_behavior_witness :
    (httpDoneCase 4 ([] : List Nat) (List.range 11)).map List.length
      = [4, 4, 3] :=
  (drain_batching_behavior 4 (List.range 11) (by omega) (by decide)).2.1

/-! ### C8: string scrubbing and idempotence -/

theorem replaceAllFuel_no_match (pat rep : List Char) :
    ∀ (fuel : Nat) (s : List Char), containsSeq pat s = false →
      replaceAllFuel pat rep fuel s = s := by
  intro fuel
  induction fuel with
  | zero => intro s _; cases s <;> simp [replaceAllFuel]
  | succ fuel ih =>
    intro s h
    cases s with
    | nil => simp [replaceAllFuel]
    | cons c rest =>
      rw [containsSeq] at h
      simp only [Bool.or_eq_false_iff] at h
      rw [replaceAllFuel]
      simp [h.1, ih rest h.2]

theorem replaceAllLit_no_match (pat rep s : String)
    (h : containsSeq pat.toList s.toList = false) :
    replaceAllLit pat rep s = s := by
  rw [replaceAllLit, replaceAllFuel_no_match pat.toList rep.toList _ _ h]
  cases s
  rfl

theorem foldl_replace_no_match (pats : List String) :
    ∀ v : String, (∀ p ∈ pats, containsSeq p.toList v.toList = false) →
      pats.foldl (fun result p => replaceAllLit p REDACTED result) v = v := by
  induction pats with
  | nil => intro v _; rfl
  | cons p ps ih =>
    intro v h
    rw [List.foldl_cons, replaceAllLit_no_match p REDACTED v (h p (by simp))]
    exact ih v (fun q hq => h q (by simp [hq]))

theorem scrubStringPasses_no_match (s : Scrubber) (v : String)
    (h : ∀ p ∈ s.patterns, containsSeq p.toList v.toList = false) :
    scrubStringPasses s v = v :=
  foldl_replace_no_match s.patterns v h

/-- C8 counterexample: idempotence fails for a configured pattern.  The
scrubber whose only pattern is the custom literal `CT` is built by
`NewScrubber` from a config naming no existing built-in; scrubbing the
string "CT" yields the marker `[REDACTED]`, whose own text contains `CT`
again, so a second scrub changes the already-scrubbed string. -/
theorem scrubString_not_idempotent_counterexample :
    NewScrubber (fun _ => none) ⟨true, ["unknown"], ["CT"], []⟩ = ctScrubber
    ∧ Scrubber.ScrubString ctScrubber "CT" = "[REDACTED]"
    ∧ Scrubber.ScrubString ctScrubber (Scrubber.ScrubString ctScrubber "CT")
      = "[REDA[REDACTED]ED]"
    ∧ Scrubber.ScrubString ctScrubber (Scrubber.ScrubString ctScrubber "CT")
      ≠ Scrubber.ScrubString ctScrubber "CT" := by decide

/-- C8 amended: `ScrubString` runs each configured pattern in order,
replacing its non-overlapping matches with the marker; it is idempotent on
every input whose once-scrubbed result is matched by no configured pattern
(which fails for configurations with a pattern matching inside the marker,
such as the literal `CT`), and it leaves inputs matched by no pattern
entirely untouched. -/
theorem scrubString_conditional_idempotent (s : Scrubber) (v : String) :
    ((∀ p ∈ s.patterns,
        containsSeq p.toList (Scrubber.ScrubString s v).toList = false) →
      Scrubber.ScrubString s (Scrubber.ScrubString s v)
        = Scrubber.ScrubString s v)
    ∧ ((∀ p ∈ s.patterns, containsSeq p.toList v.toList = false) →
      Scrubber.ScrubString s v = v) := by
  by_cases he : s.enabled = true
  · constructor
    · intro h
      have houter : Scrubber.ScrubString s (Scrubber.ScrubString s v)
          = scrubStringPasses s (Scrubber.ScrubString s v) := by
        simp [Scrubber.ScrubString, he]
      rw [houter]
      exact scrubStringPasses_no_match s _ h
    · intro h
      have hv : Scrubber.ScrubString s v = scrubStringPasses s v := by
        simp [Scrubber.ScrubString, he]
      rw [hv]
      exact scrubStringPasses_no_match s v h
  · have he' : s.enabled = false := by
      revert he
      cases s.enabled <;> simp
    constructor <;> intro _ <;> simp [Scrubber.ScrubString, he']

/-- Witness for `scrubString_conditional_idempotent`: a pattern that cannot
match inside the marker gives an idempotent scrub. -/
theorem scrubString_conditional_idempotent_witness :
    Scrubber.ScrubString ⟨true, ["XYZ"], []⟩
      (Scrubber.ScrubString ⟨true, ["XYZ"], []⟩ "aXYZb")
      = Scrubber.ScrubString ⟨true, ["XYZ"], []⟩ "aXYZb" :=
  (scrubString_conditional_idempotent ⟨true, ["XYZ"], []⟩ "aXYZb").1 (by decide)

/-! ### C7: wire serialization -/

theorem fieldOf_append (l1 l2 : List (String × JValue)) (k : String) :
    fieldOf (l1 ++ l2) k = (fieldOf l1 k).or (fieldOf l2 k) := by
  induction l1 with
  | nil => simp [fieldOf]
  | cons a t ih =>
    obtain ⟨k1, v⟩ := a
    by_cases h : (k == k1) = true
    · simp [fieldOf, h]
    · simp only [Bool.not_eq_true] at h
      simp [fieldOf, h, ih]

theorem fieldOf_optField (b : Bool) (name : String) (v : JValue) (k : String) :
    fieldOf (optField b name v) k
      = if b && (k == name) then some v else none := by
  cases b <;> by_cases h : (k == name) = true <;>
    simp_all [optField, fieldOf]

theorem fieldOf_optFieldO (name : String) (o : Option JValue) (k : String) :
    fieldOf (optFieldO name o) k = if (k == name) then o else none := by
  cases o <;> by_cases h : (k == name) = true <;>
    simp_all [optFieldO, fieldOf]

/-- C7 counterexample: serializing an `Entry` whose optional fields are all
omitted still emits them — `traceId` is present as the empty string and
`source` as JSON null (the claim says omitted fields are absent) — and the
events body serializes the timestamp as an RFC3339 STRING, not epoch
milliseconds. -/
theorem serialization_omitted_fields_counterexample :
    fieldOf (entryToMap sampleEntry) "traceId" = some (JValue.str "")
    ∧ fieldOf (entryToMap sampleEntry) "source" = some JValue.null
    ∧ fieldOf (eventFields sampleEvent) "timestamp"
      = some (JValue.str "2026-01-01T00:00:00Z") :=
  ⟨rfl, rfl, rfl⟩

/-- C7 amended: each non-empty batch serializes to an object with a single
array field — "logs" for the Observe destination, "events" for the HTTP
transport.  A logs element carries the level's lowercase name and the
timestamp as epoch milliseconds, but EVERY key is present unconditionally
(omitted optionals appear as empty/null values, e.g. `traceId`); an events
element omits empty optional fields and keeps populated ones (shown for
`environment` and `message`), carries the level string verbatim (the
predeclared levels are lowercase), but serializes the timestamp as the
RFC3339 string of the event time, not as epoch milliseconds. -/
theorem wire_body_shape (batch : List Entry) (evs : List EventS)
    (e : Entry) (ev : EventS) (hb : batch ≠ []) (hevs : evs ≠ []) :
    observeBody batch = some (JValue.obj
      [("logs", JValue.arr (batch.map fun x => JValue.obj (entryToMap x)))])
    ∧ fieldOf (entryToMap e) "level" = some (JValue.str (levelName e.level))
    ∧ fieldOf (entryToMap e) "timestamp"
      = some (JValue.num e.timestamp.unixMilli)
    ∧ fieldOf (entryToMap e) "traceId" = some (JValue.str e.traceID)
    ∧ httpBody evs
      = some (JValue.obj [("events", JValue.arr (evs.map eventJson))])
    ∧ fieldOf (eventFields ev) "timestamp"
      = some (JValue.str ev.timestamp.rfc3339)
    ∧ fieldOf (eventFields ev) "level" = some (JValue.str ev.level)
    ∧ fieldOf (eventFields ev) "environment"
      = (if ev.environment == "" then none
         else some (JValue.str ev.environment))
    ∧ fieldOf (eventFields ev) "message"
      = (if ev.message == "" then none else some (JValue.str ev.message)) := by
  have hbe : batch.isEmpty = false := by
    rcases batch with _ | _
    · exact absurd rfl hb
    · simp
  have heve : evs.isEmpty = false := by
    rcases evs with _ | _
    · exact absurd rfl hevs
    · simp
  refine ⟨by rw [observeBody]; simp [hbe], rfl, rfl, rfl,
    by rw [httpBody]; simp [heve], rfl, rfl, ?_, ?_⟩
  · simp only [eventFields, List.append_assoc, fieldOf_append,
      fieldOf_optField, fieldOf_optFieldO]
    simp [fieldOf, bne]
  · simp only [eventFields, List.append_assoc, fieldOf_append,
      fieldOf_optField, fieldOf_optFieldO]
    simp [fieldOf, bne]

/-- Witness for `wire_body_shape` at the concrete fixtures. -/
theorem wire_body_shape_witness :
    fieldOf (entryToMap sampleEntry) "level" = some (JValue.str "error") :=
  (wire_body_shape [sampleEntry] [sampleEvent] sampleEntry sampleEvent
    (by simp) (by simp)).2.1
